import Mathlib

/-!
Verification of the market-daily-snapshot repository against its
natural-language specification.

The development is a shallow embedding of the two Python scripts
`daily_market_prices.py` and `news_crawler.py`:

* pure string/number formatting code becomes Lean functions on `String`,
  `Nat`, `Int` and `Rat` (Python floats are modelled as rationals; the
  rounding performed by Python's fixed-point float formatting is modelled
  as round-half-up on the rational value);
* network and file I/O boundaries become explicit parameters: an HTTP
  response is a value of `Except String α` (`.error` models a raised
  exception inside the library call, `.ok` a successful response), and
  per-symbol remote quote services become oracle functions
  `String → Option α`;
* Python exceptions escaping a function are modelled by an
  `Except String _` (or `Option _`) result type, while functions whose
  whole body is wrapped in `try/except: return None` are total functions
  returning `Option _`;
* Python `str` values are Lean `String`s; the helpers below re-implement
  the exact `str` methods used by the scripts (`strip`, `split`,
  `replace`, `startswith`, `lower`, slicing, `zfill`) by structural
  recursion over the character list so every definition evaluates inside
  the kernel. Python `len` counts code points, as does `sLen` below.
-/

/-! ### String helpers (Python `str` methods used by the scripts) -/

/-- Length of a string in code points, like Python `len`. -/
def sLen (s : String) : Nat := s.data.length

/-- Test whether `pat` occurs inside `s`, like Python `pat in s`
(used for column-name matching in `_wiki_table_first`). -/
def listHasSub (pat : List Char) : List Char → Bool
  | [] => pat.isEmpty
  | c :: rest => pat.isPrefixOf (c :: rest) || listHasSub pat rest

/-- String version of `listHasSub`: Python `pat in s`. -/
def sHasSub (s pat : String) : Bool := listHasSub pat.data s.data

/-- Python `s.strip()`: remove leading and trailing whitespace. -/
def sStrip (s : String) : String :=
  String.mk (((s.data.dropWhile Char.isWhitespace).reverse.dropWhile Char.isWhitespace).reverse)

/-- Python `s.startswith(pat)`. -/
def sStartsWith (s pat : String) : Bool := pat.data.isPrefixOf s.data

/-- Python `s.split(sep)` for a one-character separator (the scripts only
split on "·", "," and newline).  Keeps empty fields, and like Python
returns `[""]` on the empty string. -/
def splitCharAux (sep : Char) : List Char → List Char → List (List Char)
  | [], cur => [cur.reverse]
  | c :: rest, cur =>
    if c = sep then cur.reverse :: splitCharAux sep rest []
    else splitCharAux sep rest (c :: cur)

/-- String version of `splitCharAux`. -/
def sSplitChar (s : String) (sep : Char) : List String :=
  (splitCharAux sep s.data []).map String.mk

/-- Python `s.replace(pat, rep)`: replace non-overlapping occurrences left
to right.  The recursion is driven by a fuel argument equal to the length
of the string, which suffices because each step consumes at least one
character (the scripts never call `replace` with an empty pattern). -/
def replaceAux (pat rep : List Char) : Nat → List Char → List Char
  | 0, s => s
  | _ + 1, [] => []
  | fuel + 1, c :: rest =>
    if pat.isPrefixOf (c :: rest) then
      rep ++ replaceAux pat rep fuel (List.drop pat.length (c :: rest))
    else
      c :: replaceAux pat rep fuel rest

/-- String version of `replaceAux`; Python `s.replace(pat, rep)`. -/
def sReplace (s pat rep : String) : String :=
  if pat.data.isEmpty then s
  else String.mk (replaceAux pat.data rep.data s.data.length s.data)

/-- Python `s.lower()` (the scripts only lower-case ASCII column names). -/
def sLower (s : String) : String := String.mk (s.data.map Char.toLower)

/-- Python slicing `s[:n]`. -/
def sTake (s : String) (n : Nat) : String := String.mk (s.data.take n)

/-- Python `c in s` for a single character (used as `"." in ticker_text`). -/
def sHasChar (s : String) (c : Char) : Bool := s.data.contains c

/-- Python `s.zfill(n)`: left-pad with zeros to length `n`. -/
def sZfill (s : String) (n : Nat) : String :=
  String.mk (List.replicate (n - s.data.length) '0') ++ s

/-- Python format specifier `{s:>w}`: left-pad with spaces to width `w`
(width counted in code points, unchanged when already wide enough). -/
def padLeft (w : Nat) (s : String) : String :=
  String.mk (List.replicate (w - sLen s) ' ') ++ s

/-- Python format specifier `{s:<w}`: right-pad with spaces to width `w`. -/
def padRight (w : Nat) (s : String) : String :=
  s ++ String.mk (List.replicate (w - sLen s) ' ')

/-- First maximal run of decimal digits in a string, or `""` when there is
none: Python `s.str.extract(r"(\d+)")` followed by `fillna("")` as used in
`_get_universe_hk_hsi`. -/
def firstDigitRun : List Char → List Char
  | [] => []
  | c :: rest => if c.isDigit then (c :: rest).takeWhile Char.isDigit else firstDigitRun rest

/-- String version of `firstDigitRun`. -/
def sFirstDigitRun (s : String) : String := String.mk (firstDigitRun s.data)

/-! ### Number parsing and formatting -/

/-- Parse an unsigned decimal integer; `none` when the list is empty or
contains a non-digit. -/
def parseNatDigits (cs : List Char) : Option Nat :=
  if cs.isEmpty ∨ ¬ cs.all Char.isDigit then none
  else some (cs.foldl (fun acc c => acc * 10 + (c.toNat - '0'.toNat)) 0)

/-- Model of Python `float(s)` restricted to plain decimal literals
`[+-]digits[.digits]`, which covers every numeric field the scripts
actually parse (Stooq CSV closes, Alpha Vantage quote fields).  Exotic
accepted forms of Python `float` (exponents, `inf`, `nan`, surrounding
whitespace) are not modelled; on them, as on genuinely malformed text,
the model returns `none`, which corresponds to `float` raising
`ValueError` (always caught by the callers). -/
def parseFloat (s : String) : Option Rat :=
  let core : List Char → Option Rat := fun cs =>
    match splitCharAux '.' cs [] with
    | [intPart] => (parseNatDigits intPart).map (fun n => (n : Rat))
    | [intPart, fracPart] =>
        match parseNatDigits intPart, parseNatDigits fracPart with
        | some w, some f => some ((w : Rat) + Rat.divInt f (10 ^ fracPart.length))
        | _, _ => none
    | _ => none
  match s.data with
  | '+' :: rest => core rest
  | '-' :: rest => (core rest).map Neg.neg
  | cs => core cs

/-- Round-half-up of `x` scaled to cents: the integer nearest `100 * x`
(halves rounded up).  This models the rounding of Python's `%.2f` float
formatting; Python actually rounds the underlying binary float half to
even, a difference that only shows at exact decimal midpoints, which no
claim in this development exercises. -/
def cents (x : Rat) : Int := Int.fdiv (200 * x.num + x.den) (2 * x.den)

/-- Insert thousands separators into a digit string, like the `,` flag of
Python's format specifiers. -/
def groupThousandsAux : Nat → List Char → List Char
  | _, [] => []
  | k, c :: rest =>
    if k % 3 = 0 ∧ k ≠ 0 then c :: ',' :: groupThousandsAux (k - 1) rest
    else c :: groupThousandsAux (k - 1) rest

/-- Digit-grouping on a string of digits (applied to the integer part). -/
def groupThousands (s : String) : String :=
  String.mk (groupThousandsAux s.data.length s.data)

/-- Unsigned fixed-point rendering of a nonnegative cent count:
`digits.dd`, with optional thousands grouping of the integer part. -/
def centsToString (comma : Bool) (c : Nat) : String :=
  let whole := toString (c / 100)
  let frac := c % 100
  (if comma then groupThousands whole else whole) ++ "." ++
    (if frac < 10 then "0" ++ toString frac else toString frac)

/-- Python `f"{x:.2f}"`-style sign handling shared by the formatters:
`plus = true` renders a leading `+` on nonnegative values (format flag
`+`), and the sign of a negative zero result comes from the sign of `x`
itself, as it does for Python floats. -/
def fmtFixed2 (plus comma : Bool) (x : Rat) : String :=
  let sign := if x < 0 then "-" else if plus then "+" else ""
  sign ++ centsToString comma (cents |x|).toNat

/-- Python `f"{x:,.2f}"`. -/
def fmtComma2 (x : Rat) : String := fmtFixed2 false true x

/-- Python `f"{x:+,.2f}"`. -/
def fmtPlusComma2 (x : Rat) : String := fmtFixed2 true true x

/-- Python `f"{x:+.2f}"`. -/
def fmtPlus2 (x : Rat) : String := fmtFixed2 true false x

/-! ### Dates and clock readings -/

/-- Wall-clock reading, the result of Python `datetime.now()`.  The
formatters that call `datetime.now()` receive the reading as an explicit
parameter, which makes their dependence on the clock visible to the
theorems below.  A single reading is threaded through each formatter
invocation; the scripts actually call `datetime.now()` up to three times
per invocation, so the model identifies readings taken microseconds
apart. -/
structure Clock where
  year : Nat
  month : Nat
  day : Nat
  hour : Nat
  minute : Nat
  second : Nat

/-- Zero-padded two-digit rendering of a field, as `strftime` produces. -/
def pad2 (n : Nat) : String := if n < 10 then "0" ++ toString n else toString n

/-- Four-digit year rendering. -/
def pad4 (n : Nat) : String := String.mk (List.replicate (4 - (toString n).data.length) '0') ++ toString n

/-- ISO date rendering of a (year, month, day) triple:
`strftime("%Y-%m-%d")` / `date.isoformat()`. -/
def isoOfYmd (d : Nat × Nat × Nat) : String :=
  pad4 d.1 ++ "-" ++ pad2 d.2.1 ++ "-" ++ pad2 d.2.2

/-- Date part of a clock reading: `datetime.now().strftime("%Y-%m-%d")`. -/
def clockDate (t : Clock) : String := isoOfYmd (t.year, t.month, t.day)

/-- Minute-resolution timestamp: `strftime("%Y-%m-%d %H:%M")`. -/
def clockStampYmdHm (t : Clock) : String :=
  clockDate t ++ " " ++ pad2 t.hour ++ ":" ++ pad2 t.minute

/-- Time-of-day stamp: `strftime("%H:%M")` (used by `format_telegram`). -/
def clockStampHm (t : Clock) : String := pad2 t.hour ++ ":" ++ pad2 t.minute

/-- Gregorian leap-year test. -/
def isLeap (y : Nat) : Bool := (y % 4 = 0 ∧ y % 100 ≠ 0) ∨ y % 400 = 0

/-- Days in a month. -/
def daysInMonth (y m : Nat) : Nat :=
  if m = 2 then (if isLeap y then 29 else 28)
  else if m = 4 ∨ m = 6 ∨ m = 9 ∨ m = 11 then 30
  else 31

/-- Previous calendar day: `some_datetime - timedelta(days=1)` restricted
to the date part, which is all the scripts render of the result. -/
def predYmd (d : Nat × Nat × Nat) : Nat × Nat × Nat :=
  match d with
  | (y, m, day) =>
    if 1 < day then (y, m, day - 1)
    else if 1 < m then (y, m - 1, daysInMonth y (m - 1))
    else (y - 1, 12, 31)

/-- Parse an ISO `YYYY-MM-DD` date into a (year, month, day) triple.
This models `datetime.fromisoformat` / `pd.to_datetime` on the date
strings the scripts produce and consume; other accepted input formats of
those very permissive parsers are not modelled and yield `none` (the
parse-failure outcome). -/
def parseIsoYmd (s : String) : Option (Nat × Nat × Nat) :=
  match sSplitChar s '-' with
  | [ys, ms, ds] =>
    if ys.data.length = 4 ∧ ms.data.length = 2 ∧ ds.data.length = 2 then
      match parseNatDigits ys.data, parseNatDigits ms.data, parseNatDigits ds.data with
      | some y, some m, some d =>
        if 1 ≤ m ∧ m ≤ 12 ∧ 1 ≤ d ∧ d ≤ daysInMonth y m then some (y, m, d) else none
      | _, _, _ => none
    else none
  | _ => none

/-- Chronological key of a date triple, so that comparing keys compares
dates (the role `pd.Timestamp` ordering plays in the script). -/
def ymdKey (d : Nat × Nat × Nat) : Nat := d.1 * 10000 + d.2.1 * 100 + d.2.2

/-! ### Stable sorting (Python `sorted`) -/

/-- Insert `a` after every element `b` of an already-sorted list with
`le b a`, i.e. keep `a` behind its equals: the insertion step of a stable
sort. -/
def stableInsert (le : α → α → Bool) (a : α) : List α → List α
  | [] => [a]
  | b :: bs => if le b a then b :: stableInsert le a bs else a :: b :: bs

/-- Stable sort by the boolean preorder `le`, processing elements in input
order.  For a total transitive `le` this computes exactly the output of
Python's stable `sorted`; `sorted(key=k)` is `sortedPy (k a ≤ k b)` and
`sorted(key=k, reverse=True)` is `sortedPy (k b ≤ k a)`. -/
def sortedPy (le : α → α → Bool) (l : List α) : List α :=
  l.foldl (fun acc a => stableInsert le a acc) []

theorem mem_stableInsert (le : α → α → Bool) (a : α) (l : List α) (x : α) :
    x ∈ stableInsert le a l ↔ x = a ∨ x ∈ l := by
  induction l with
  | nil => simp [stableInsert]
  | cons b bs ih =>
    by_cases h : le b a = true
    · simp only [stableInsert, if_pos h, List.mem_cons, ih]
      tauto
    · simp only [stableInsert, if_neg h, List.mem_cons]

theorem stableInsert_pairwise (le : α → α → Bool)
    (htrans : ∀ a b c, le a b = true → le b c = true → le a c = true)
    (htot : ∀ a b, le a b = true ∨ le b a = true)
    (a : α) (l : List α) (hl : l.Pairwise (fun x y => le x y = true)) :
    (stableInsert le a l).Pairwise (fun x y => le x y = true) := by
  induction l with
  | nil => simp [stableInsert]
  | cons b bs ih =>
    rcases List.pairwise_cons.mp hl with ⟨hb, hbs⟩
    by_cases h : le b a = true
    · rw [stableInsert, if_pos h]
      refine List.pairwise_cons.mpr ⟨?_, ih hbs⟩
      intro x hx
      rcases (mem_stableInsert le a bs x).mp hx with h1 | h2
      · subst h1; exact h
      · exact hb x h2
    · have hab : le a b = true := (htot a b).resolve_right h
      rw [stableInsert, if_neg h]
      refine List.pairwise_cons.mpr ⟨?_, hl⟩
      intro x hx
      rcases List.mem_cons.mp hx with h1 | h2
      · subst h1; exact hab
      · exact htrans a b x hab (hb x h2)

theorem sortedPy_pairwise (le : α → α → Bool)
    (htrans : ∀ a b c, le a b = true → le b c = true → le a c = true)
    (htot : ∀ a b, le a b = true ∨ le b a = true)
    (l : List α) :
    (sortedPy le l).Pairwise (fun x y => le x y = true) := by
  have aux : ∀ (l : List α) (acc : List α),
      acc.Pairwise (fun x y => le x y = true) →
      (l.foldl (fun acc a => stableInsert le a acc) acc).Pairwise
        (fun x y => le x y = true) := by
    intro l
    induction l with
    | nil => intro acc h; simpa using h
    | cons a as ih =>
      intro acc h
      exact ih _ (stableInsert_pairwise le htrans htot a acc h)
  exact aux l [] List.Pairwise.nil


/-- Join a list of strings with a separator: Python `sep.join(xs)`. -/
def sIntercalate (sep : String) : List String → String
  | [] => ""
  | [x] => x
  | x :: xs => x ++ sep ++ sIntercalate sep xs

/-- Python `enumerate(xs, i)`. -/
def enumFrom : Nat → List α → List (Nat × α)
  | _, [] => []
  | i, x :: xs => (i, x) :: enumFrom (i + 1) xs

/-! ### news_crawler.py: data model and card extraction

The browser session of `crawl_blackquant_news` is outside the embedding;
what the claims are about is the pure per-card field extraction.  A
`Card` records, for one news card, what each CSS selector query of the
source returned: `none` models a selector that matched no element, and
for the two `query_selector_all` calls the list of inner texts of the
matched elements. -/

structure Card where
  titleElem : Option String
  summaryElem : Option String
  firstLine : Option String
  importanceBadge : Option String
  sentimentBadges : List String
  tickerElems : List String

structure NewsItem where
  title : String
  summary : String
  source : String
  time : String
  importance : String
  sentiment : String
  tickers : List String
deriving DecidableEq

/-- Title extraction: inner text of the title element if present, else
`""`, then `strip()`. -/
def card_title (c : Card) : String := sStrip (c.titleElem.getD "")

/-- Summary extraction, same shape as the title. -/
def card_summary (c : Card) : String := sStrip (c.summaryElem.getD "")

/-- Source and time extraction from the first line: split on "·", two or
more parts give (source, time), one part gives (source, ""), a missing
first line gives ("", "").  (Python `split` never returns an empty list,
so the `elif parts:` branch of the source always fires when the line
exists.) -/
def card_source_time (c : Card) : String × String :=
  match c.firstLine with
  | none => ("", "")
  | some ft =>
    match sSplitChar ft '·' with
    | p0 :: _p1 :: _ => (sStrip p0, sStrip (((sSplitChar ft '·').drop 1).headD ""))
    | [p0] => (sStrip p0, "")
    | [] => ("", "")

/-- Importance badge extraction. -/
def card_importance (c : Card) : String :=
  match c.importanceBadge with
  | none => ""
  | some s => sStrip s

/-- Sentiment extraction: the first badge whose stripped text is one of
the three recognised labels, else `""`. -/
def card_sentiment (c : Card) : String :=
  match c.sentimentBadges.find?
      (fun b => sStrip b = "긍정" ∨ sStrip b = "부정" ∨ sStrip b = "중립") with
  | none => ""
  | some b => sStrip b

/-- Ticker extraction: stripped texts that are nonempty and contain a
dot (the `AMZN.US` shape). -/
def card_tickers (c : Card) : List String :=
  (c.tickerElems.map sStrip).filter (fun t => ¬ t = "" ∧ sHasChar t '.' = true)

/-- Per-card record construction: all fields are extracted, then the
record is kept only when the stripped title is nonempty (`if title:`). -/
def extract_item (c : Card) : Option NewsItem :=
  let title := card_title c
  if title = "" then none
  else some
    { title := title
      summary := card_summary c
      source := (card_source_time c).1
      time := (card_source_time c).2
      importance := card_importance c
      sentiment := card_sentiment c
      tickers := card_tickers c }

/-- Sequential collection of the extracted records, in card order. -/
def collectItems : List Card → List NewsItem
  | [] => []
  | c :: cs =>
    match extract_item c with
    | some i => i :: collectItems cs
    | none => collectItems cs

/-- Pure core of `crawl_blackquant_news`: process the first `limit`
cards (`news_cards[:limit]`) and return the extracted records. -/
def crawl_blackquant_news (cards : List Card) (limit : Nat) : List NewsItem :=
  collectItems (cards.take limit)

/-! ### news_crawler.py: formatters -/

/-- Importance emoji map of `format_news_report` (default "⚪"). -/
def impEmoji (s : String) : String :=
  if s = "HIGH" then "🔴" else if s = "MEDIUM" then "🟡"
  else if s = "LOW" then "🟢" else "⚪"

/-- Sentiment emoji map of `format_news_report` (default ""). -/
def sentEmoji (s : String) : String :=
  if s = "긍정" then "📈" else if s = "부정" then "📉"
  else if s = "중립" then "➡️" else ""

/-- Lines contributed by one item to the plain-text news report. -/
def newsReportItemLines (p : Nat × NewsItem) : List String :=
  let item := p.2
  ["[" ++ toString p.1 ++ "] " ++ impEmoji item.importance ++ " " ++ item.title,
   "    📍 " ++ item.source ++ " · " ++ item.time ++ " " ++ sentEmoji item.sentiment]
  ++ (if ¬ item.summary = "" then
        ["    📝 " ++ (if 150 < sLen item.summary then sTake item.summary 150 ++ "..."
                       else item.summary)]
      else [])
  ++ (if ¬ item.tickers = [] then ["    🏷️ " ++ sIntercalate ", " item.tickers] else [])
  ++ [""]

/-- Embedding of `format_news_report`.  The `datetime.now()` call of the
source is the explicit `now` parameter. -/
def format_news_report (now : Clock) (news_items : List NewsItem) : String :=
  if news_items.isEmpty then "뉴스를 찾을 수 없습니다."
  else
    sIntercalate "\n"
      (["📰 BlackQuant 글로벌 뉴스 요약",
        "수집 시간: " ++ clockStampYmdHm now,
        "총 " ++ toString news_items.length ++ "건",
        "",
        String.mk (List.replicate 70 '='),
        ""]
       ++ ((enumFrom 1 news_items).map newsReportItemLines).flatten)

/-- One line of the Telegram format. -/
def telegramLine (item : NewsItem) : String :=
  (if item.importance = "HIGH" then "🔴" else if item.importance = "MEDIUM" then "🟡" else "")
  ++ (if item.sentiment = "긍정" then "↑" else if item.sentiment = "부정" then "↓" else "")
  ++ " " ++ sTake item.title 60
  ++ (match item.tickers with | [] => "" | t :: _ => " [" ++ t ++ "]")

/-- Embedding of `format_telegram`. -/
def format_telegram (now : Clock) (news_items : List NewsItem) : String :=
  if news_items.isEmpty then "뉴스 없음"
  else
    sIntercalate "\n"
      (["📰 글로벌 뉴스 (" ++ clockStampHm now ++ ")", ""]
       ++ news_items.map telegramLine)

/-- Backlink key of a ticker in the news markdown: strip the `.US` and
`.HK` suffixes. -/
def tickerKey (t : String) : String := sReplace (sReplace t ".US" "") ".HK" ""

/-- Lines contributed by one item to the news markdown Headlines section. -/
def newsMdItemLines (p : Nat × NewsItem) : List String :=
  let item := p.2
  let imp_tag := if item.importance = "HIGH" then "🔴 HIGH"
    else if item.importance = "MEDIUM" then "🟡 MED"
    else if item.importance = "LOW" then "🟢 LOW" else ""
  let ticker_links := item.tickers.map (fun t => "[[" ++ tickerKey t ++ "]]")
  let ticker_str := if ticker_links.isEmpty then "" else sIntercalate " " ticker_links
  ["### " ++ toString p.1 ++ ". " ++ item.title,
   "",
   "- **Source**: " ++ item.source ++ " · " ++ item.time,
   "- **Importance**: " ++ imp_tag ++ " " ++ sentEmoji item.sentiment]
  ++ (if ¬ ticker_str = "" then ["- **Tickers**: " ++ ticker_str] else [])
  ++ [""]
  ++ (if ¬ item.summary = "" then ["> " ++ item.summary, ""] else [])

/-- Python-dict-with-list-values append used for the per-ticker grouping:
first insertion fixes the position of a key, later appends extend its
value list in place. -/
def dictAppend : List (String × List String) → String → String → List (String × List String)
  | [], k, v => [(k, [v])]
  | (k', vs) :: rest, k, v =>
    if k' = k then (k', vs ++ [v]) :: rest else (k', vs) :: dictAppend rest k v

/-- The `ticker_news` grouping built while emitting headlines: for each
item in order, for each of its tickers, append the truncated title under
the ticker's backlink key. -/
def tickerNewsOf (news_items : List NewsItem) : List (String × List String) :=
  news_items.foldl
    (fun m item =>
      item.tickers.foldl (fun m t => dictAppend m (tickerKey t) (sTake item.title 50)) m)
    []

/-- Line list of the news markdown for a nonempty item list. -/
def format_markdown_news_lines (now : Clock) (news_items : List NewsItem) : List String :=
  let today := clockDate now
  let yesterday := isoOfYmd (predYmd (now.year, now.month, now.day))
  let ticker_news := tickerNewsOf news_items
  ["---",
   "date: " ++ today,
   "type: news",
   "tags: [news, market, daily]",
   "---",
   "",
   "# Global News - " ++ today,
   "",
   "> 수집 시간: " ++ clockStampYmdHm now ++ "  ",
   "> 총 " ++ toString news_items.length ++ "건",
   "",
   "## Headlines",
   ""]
  ++ ((enumFrom 1 news_items).map newsMdItemLines).flatten
  ++ ["---",
      "",
      "## Related",
      "",
      "- [[" ++ yesterday ++ "|어제 뉴스]]",
      "- [[Daily Market Snapshot - " ++ today ++ "|오늘 시황]]"]
  ++ (if ¬ ticker_news.isEmpty then
        ["", "### By Ticker"]
        ++ (ticker_news.take 10).map
            (fun p => "- [[" ++ p.1 ++ "]]: " ++ toString p.2.length ++ "건")
      else [])

/-- Embedding of the news `format_markdown`: an empty item list
short-circuits to a fixed no-data string, otherwise the line list above
is joined with newlines. -/
def format_markdown_news (now : Clock) (news_items : List NewsItem) : String :=
  if news_items.isEmpty then "# Global News\n\nNo news found."
  else sIntercalate "\n" (format_markdown_news_lines now news_items)

/-! ### daily_market_prices.py: table formatters -/

/-- Mover record: (ticker, display name, percentage change). -/
abbrev Mover := String × String × Rat

/-- Number cell of `_fmt_row`: `"조회 실패"` for a missing value, else
`f"{x:,.2f}"`. -/
def fnum : Option Rat → String
  | none => "조회 실패"
  | some x => fmtComma2 x

/-- Change cell of `_fmt_row`: `f"{x:+,.2f}"` when present. -/
def fchg : Option Rat → String
  | none => "조회 실패"
  | some x => fmtPlusComma2 x

/-- Percent cell of `_fmt_row`: `f"{x:+.2f}%"` when present. -/
def fpct : Option Rat → String
  | none => "조회 실패"
  | some x => fmtPlus2 x ++ "%"

/-- Embedding of `_fmt_row`. -/
def _fmt_row (name : String) (close chg pct : Option Rat) : String :=
  padRight 18 name ++ " | " ++ padLeft 12 (fnum close) ++ " | " ++
    padLeft 10 (fchg chg) ++ " | " ++ padLeft 9 (fpct pct)

/-- One data row of `_movers_table`: truncate the cleaned name to 30
characters and render the percentage move. -/
def moverLine (m : Mover) : String :=
  let n2 := sReplace (sStrip m.2.1) "\n" " "
  let n3 := if 30 < sLen n2 then sTake n2 27 ++ "..." else n2
  padRight 10 m.1 ++ " | " ++ padRight 30 n3 ++ " | " ++ fmtPlus2 m.2.2 ++ "%"

/-- Embedding of `_movers_table`.  The Python parameter also admits
`None`, which the script's own callers never pass; `None` and the empty
list both take the placeholder branch (`if not movers:`), so the model
uses the list. -/
def _movers_table (title : String) (movers : List Mover) (limit : Nat) : String :=
  if movers.isEmpty then title ++ "\n- (조회 실패/데이터 없음)"
  else
    title ++ "\n```\n" ++
      sIntercalate "\n"
        (["ticker      | name                           | move%",
          String.mk (List.replicate 62 '-')]
         ++ (movers.take limit).map moverLine)
      ++ "\n```"

/-- The `gainers_sorted` list of `_format_gainers_losers`: Python
`sorted(gainers, key=lambda x: x[2], reverse=True)[:10]`, a stable
descending sort by percentage truncated to ten records. -/
def sortGainersPy (gainers : List Mover) : List Mover :=
  (sortedPy (fun a b => decide (b.2.2 ≤ a.2.2)) gainers).take 10

/-- The `losers_sorted` list: `sorted(losers, key=lambda x: x[2])[:10]`. -/
def sortLosersPy (losers : List Mover) : List Mover :=
  (sortedPy (fun a b => decide (a.2.2 ≤ b.2.2)) losers).take 10

/-- Embedding of `_format_gainers_losers`. -/
def _format_gainers_losers (gainers losers : List Mover) (market : String) : String :=
  sIntercalate "\n\n"
    [_movers_table ("📈 " ++ market ++ " 상승 Top 10") (sortGainersPy gainers) 10,
     _movers_table ("📉 " ++ market ++ " 하락 Top 10") (sortLosersPy losers) 10]

/-- Embedding of `_section`. -/
def _section (title : String) (rows : List String) : String :=
  let header := "지수               |         종가 |      변동 |    변동%"
  title ++ "\n```\n" ++
    sIntercalate "\n" (header :: String.mk (List.replicate (sLen header) '-') :: rows)
    ++ "\n```"

/-! ### daily_market_prices.py: data-source functions

Each source function receives its HTTP response as an `Except String _`
value: `.error e` models `requests.get` (or the body/JSON accessor)
raising, `.ok v` a delivered response. -/

/-- One usable Stooq row after column extraction: chronological date key
and close value.  A row survives `dropna(subset=["Date", "Close"])`
exactly when both parse. -/
def stooqRowOf (cols : List String) (fields : List String) : Option (Nat × Rat) :=
  let get : String → Option String := fun c =>
    ((cols.zip fields).find? (fun p => p.1 = c)).map (·.2)
  match (get "Date").bind parseIsoYmd, (get "Close").bind parseFloat with
  | some d, some c => some (ymdKey d, c)
  | _, _ => none

/-- Rows of the Stooq CSV body after parsing, `dropna` and the stable
`sort_values("Date")`. -/
def stooqRows (txt : String) : List (Nat × Rat) :=
  match sSplitChar txt '\n' with
  | [] => []
  | header :: body =>
    let cols := sSplitChar header ','
    sortedPy (fun a b => decide (a.1 ≤ b.1))
      ((body.filter (fun l => ¬ l = "")).filterMap
        (fun l => stooqRowOf cols (sSplitChar l ',')))

/-- Rows remaining after the optional `as_of` cutoff filter
(`df[df["Date"] <= cutoff]`); an unparsable `as_of` yields `[]`, matching
the `pd.to_datetime` exception that empties the result. -/
def stooqUsableRows (resp : Except String String) (as_of : Option String) : List (Nat × Rat) :=
  match resp with
  | .error _ => []
  | .ok raw =>
    let txt := sStrip raw
    if txt = "" then []
    else if sStartsWith txt "Exceeded the daily hits limit" then []
    else if ¬ sStartsWith txt "Date," = true then []
    else
      let rows := stooqRows txt
      match as_of with
      | none => rows
      | some a =>
        match parseIsoYmd a with
        | none => []
        | some cutoff => rows.filter (fun r => decide (r.1 ≤ ymdKey cutoff))

/-- Embedding of `_stooq_last_two_closes`: gate checks on the text, CSV
parse, `dropna`, sort, the two length checks around the cutoff filter,
and finally the last two closes `(date, last, prev)`. -/
def _stooq_last_two_closes (resp : Except String String) (as_of : Option String) :
    Option (Nat × Rat × Rat) :=
  match resp with
  | .error _ => none
  | .ok raw =>
    let txt := sStrip raw
    if txt = "" then none
    else if sStartsWith txt "Exceeded the daily hits limit" then none
    else if ¬ sStartsWith txt "Date," = true then none
    else
      let rows := stooqRows txt
      if rows.length < 2 then none
      else
        let rows2 :=
          match as_of with
          | none => some rows
          | some a =>
            match parseIsoYmd a with
            | none => none
            | some cutoff => some (rows.filter (fun r => decide (r.1 ≤ ymdKey cutoff)))
        match rows2 with
        | none => none
        | some rs =>
          if rs.length < 2 then none
          else
            match rs.getLast?, (rs.drop (rs.length - 2)).head? with
            | some last, some prev => some (last.1, last.2, prev.2)
            | _, _ => none

/-- The `"Global Quote"` payload of an Alpha Vantage `GLOBAL_QUOTE`
response; each field is present or absent, and `none` for the whole
payload also models the `not data["Global Quote"]` empty-object case. -/
structure GlobalQuote where
  price : Option String
  change : Option String
  changePercent : Option String

/-- Embedding of `_alphavantage_quote`: the whole body is inside
`try/except: return None`, so every failure path is `none`. -/
def _alphavantage_quote (resp : Except String (Option GlobalQuote)) :
    Option (Rat × Rat × Rat) :=
  match resp with
  | .error _ => none
  | .ok none => none
  | .ok (some q) =>
    let priceOpt := match q.price with
      | none => some (0 : Rat)
      | some s => parseFloat s
    let changeOpt := match q.change with
      | none => some (0 : Rat)
      | some s => parseFloat s
    let pctOpt := parseFloat (sReplace (q.changePercent.getD "0") "%" "")
    match priceOpt, changeOpt, pctOpt with
    | some price, some change, some pct =>
      if price ≤ 0 then none else some (price, change, pct)
    | _, _, _ => none

/-- Embedding of `_alphavantage_daily`: the `"Time Series (Daily)"`
payload is a list of (date string, close string) entries; the source
sorts the date keys descending and takes the two most recent closes. -/
def _alphavantage_daily (resp : Except String (Option (List (String × String)))) :
    Option (String × Rat × Rat) :=
  match resp with
  | .error _ => none
  | .ok none => none
  | .ok (some ts) =>
    let dates := sortedPy (fun a b => decide (b ≤ a)) (ts.map (·.1))
    match dates with
    | last_date :: prev_date :: _ =>
      let closeOf : String → Option Rat := fun d =>
        ((ts.find? (fun p => p.1 = d)).map (·.2)).bind parseFloat
      match closeOf last_date, closeOf prev_date with
      | some last_close, some prev_close =>
        if prev_close ≤ 0 then none else some (last_date, last_close, prev_close)
      | _, _ => none
    | _ => none

/-! ### daily_market_prices.py: universe loading -/

/-- One table as `pd.read_html` delivers it: named columns with their
cell values (already rendered to strings, as the script does with
`astype(str)`). -/
structure WikiTable where
  cols : List (String × List String)

/-- Column-name test of the ticker-column search: lower-cased name equal
to "ticker", or containing "ticker" or "symbol". -/
def colMatchTicker (c : String) : Bool :=
  let lc := sLower c
  lc = "ticker" || sHasSub lc "ticker" || sHasSub lc "symbol"

/-- Column-name test of the company-name-column search. -/
def colMatchName (c : String) : Bool :=
  let lc := sLower c
  lc = "company" || lc = "security" || lc = "name" ||
    sHasSub lc "company" || sHasSub lc "security"

/-- First table containing a ticker-like column, with the first such
column's name (the double loop with `break` in the source). -/
def findTarget : List WikiTable → Option (WikiTable × String)
  | [] => none
  | t :: ts =>
    match (t.cols.find? (fun p => colMatchTicker p.1)).map (·.1) with
    | some c => some (t, c)
    | none => findTarget ts

/-- Values of a named column (empty when the column is absent). -/
def colValues (t : WikiTable) (c : String) : List String :=
  ((t.cols.find? (fun p => p.1 = c)).map (·.2)).getD []

/-- Pandas `drop_duplicates("ticker")`: keep the first row of each
ticker. -/
def dropDupTicker : List (String × String) → List String → List (String × String)
  | [], _ => []
  | p :: rest, seen =>
    if seen.contains p.1 then dropDupTicker rest seen
    else p :: dropDupTicker rest (p.1 :: seen)

/-- Embedding of `_wiki_table_first`.  The function has no exception
handler: a failed fetch or HTML parse (`.error`) propagates unchanged,
and a page with no ticker-like column raises
`RuntimeError(f"Ticker table not found: {url}")`, modelled as the
corresponding `.error` value. -/
def _wiki_table_first (url : String) (resp : Except String (List WikiTable)) :
    Except String (List (String × String)) :=
  match resp with
  | .error e => .error e
  | .ok tables =>
    match findTarget tables with
    | none => .error ("Ticker table not found: " ++ url)
    | some (target, tcol) =>
      let tickerVals := (colValues target tcol).map (fun s => sReplace (sStrip s) "." "-")
      let nameVals :=
        match target.cols.find? (fun p => colMatchName p.1) with
        | some p => p.2.map sStrip
        | none => (colValues target tcol).map sStrip
      .ok (dropDupTicker ((tickerVals.zip nameVals).filter (fun p => 0 < sLen p.1)) [])

/-- Embedding of `_get_universe_us_ndx`.  The optional constituent CSV
(file I/O, already cleaned by `_read_constituents_csv`) is the `csv`
parameter; when absent the Wikipedia path runs and any exception of
`_wiki_table_first` propagates. -/
def _get_universe_us_ndx (csv : Option (List (String × String)))
    (resp : Except String (List WikiTable)) : Except String (List (String × String)) :=
  match csv with
  | some df => .ok df
  | none =>
    (_wiki_table_first "https://en.wikipedia.org/wiki/Nasdaq-100" resp).map
      (fun df => df.take 110)

/-- Embedding of `_get_universe_hk_hsi`: digit extraction, zero fill,
`.HK` suffix and `head(60)` on the Wikipedia frame; exceptions of
`_wiki_table_first` propagate. -/
def _get_universe_hk_hsi (csv : Option (List (String × String)))
    (resp : Except String (List WikiTable)) : Except String (List (String × String)) :=
  match csv with
  | some df => .ok df
  | none =>
    (_wiki_table_first "https://en.wikipedia.org/wiki/Hang_Seng_Index" resp).map
      (fun df =>
        let withDig := df.map (fun p =>
          (let dig := sFirstDigitRun p.1
           if dig = "" then dig else sZfill dig 4, p.2))
        ((withDig.filter (fun p => 0 < sLen p.1)).map
          (fun p => (p.1 ++ ".HK", p.2))).take 60)

/-! ### daily_market_prices.py: fallback chain, cache and main loop -/

/-- Lookup in a Python dict modelled as an association list with unique
keys. -/
def dictFind (cache : List (String × α)) (k : String) : Option α :=
  (cache.find? (fun p => p.1 = k)).map (·.2)

/-- Python dict assignment `d[k] = v`: replace the value in place when
the key exists (keeping its position, as CPython dicts do), append a new
binding otherwise. -/
def dictInsert : List (String × α) → String → α → List (String × α)
  | [], k, v => [(k, v)]
  | (k', v') :: rest, k, v =>
    if k' = k then (k, v) :: rest else (k', v') :: dictInsert rest k v

/-- Conversion of a cache hit `{date, close, prev}` into the returned
triple: `pd.to_datetime` on the stored date plus the two floats; a
malformed date makes the `except` branch return `None`. -/
def cacheEntryToTriple (e : String × Rat × Rat) : Option (Nat × Rat × Rat) :=
  (parseIsoYmd e.1).map (fun d => (ymdKey d, e.2.1, e.2.2))

/-- Embedding of `_last_two_closes_index`: Stooq first when a symbol is
configured, then the cache.  `stooq_symbol = none` models a falsy symbol
(`None` in the index definitions). -/
def _last_two_closes_index (stooqResp : Except String String) (ticker : String)
    (stooq_symbol : Option String) (as_of : Option String)
    (cache : List (String × (String × Rat × Rat))) : Option (Nat × Rat × Rat) :=
  let fromCache :=
    match dictFind cache ticker with
    | none => none
    | some e => cacheEntryToTriple e
  match stooq_symbol with
  | some _ =>
    match _stooq_last_two_closes stooqResp as_of with
    | some r => some r
    | none => fromCache
  | none => fromCache

/-- Cache writes performed by one run of `main`'s index loop: for each
ticker in iteration order, a successful fetch assigns
`cache[ticker] = {date, close, prev}` (the fetch oracle packages the
assigned record), a failed fetch leaves the cache untouched. -/
def main_cache_updates (fetch : String → Option (String × Rat × Rat))
    (tickers : List String) (cache : List (String × (String × Rat × Rat))) :
    List (String × (String × Rat × Rat)) :=
  tickers.foldl
    (fun c t =>
      match fetch t with
      | none => c
      | some e => dictInsert c t e)
    cache

/-- Rows and failure tickers produced by `main`'s loop over one region
map: a failed fetch contributes an all-placeholder row and records the
ticker, a successful fetch contributes the computed row with
`chg = close - prev` and `pct = (close / prev - 1) * 100`. -/
def run_region (fetch : String → Option (Nat × Rat × Rat)) :
    List (String × String) → List String × List String
  | [] => ([], [])
  | (name, ticker) :: rest =>
    let r := run_region fetch rest
    match fetch ticker with
    | none => (_fmt_row name none none none :: r.1, ticker :: r.2)
    | some (_, close, prev) =>
      (_fmt_row name (some close) (some (close - prev)) (some ((close / prev - 1) * 100)) :: r.1,
       r.2)

/-- The three-region loop: one `_section` per region and the failure
tickers accumulated across all regions in iteration order. -/
def run_regions (fetch : String → Option (Nat × Rat × Rat)) :
    List (String × List (String × String)) → List String × List String
  | [] => ([], [])
  | (title, mp) :: rest =>
    let rr := run_region fetch mp
    let rs := run_regions fetch rest
    (_section title rr.1 :: rs.1, rr.2 ++ rs.2)

/-- The four fixed comment lines of the report footer. -/
def baseComments : List String :=
  ["코멘트:",
   "- 지수: Stooq 무료 API 사용",
   "- US Movers: Alpha Vantage 무료 API (분당 5회 제한)",
   "- CN/HK Movers: Alpha Vantage 미지원으로 스킵"]

/-- Footer comment lines: the fixed lines plus, when any ticker failed,
the failed-ticker line. -/
def comments_footer (failures : List String) : List String :=
  baseComments ++
    (if failures.isEmpty then [] else ["- 실패 티커: " ++ sIntercalate ", " failures])

/-- Final text report assembly of `main`: header, date line, sections,
movers blocks, and the joined footer comments as the last block. -/
def price_report_out (date_line : String) (sections movers_blocks : List String)
    (failures : List String) : String :=
  sIntercalate "\n\n"
    (["📌 데일리 지수 스냅샷", date_line] ++ sections ++ movers_blocks ++
      [sIntercalate "\n" (comments_footer failures)])

/-! ### daily_market_prices.py: markdown renderer -/

/-- The per-region index data `main` collects for the markdown renderer:
for each display name either the `(close, change, pct)` triple of a
successful fetch or `none` for a failure (main always stores the three
fields together, which is the shape this model fixes). -/
structure IndicesData where
  us : List (String × Option (Rat × Rat × Rat))
  cn : List (String × Option (Rat × Rat × Rat))
  hk : List (String × Option (Rat × Rat × Rat))
  as_of : Option String

/-- One markdown table row: the dash row both for a missing close and
for a close of exactly 0 (Python `if data.get("close"):` treats `0.0` as
falsy). -/
def idxRow (p : String × Option (Rat × Rat × Rat)) : String :=
  match p.2 with
  | some (c, ch, pc) =>
    if ¬ c = 0 then
      "| [[" ++ p.1 ++ "]] | " ++ fmtComma2 c ++ " | " ++ fmtPlusComma2 ch ++ " | " ++
        fmtPlus2 pc ++ "% |"
    else "| [[" ++ p.1 ++ "]] | - | - | - |"
  | none => "| [[" ++ p.1 ++ "]] | - | - | - |"

/-- The `today` string of the markdown renderer: the report date when
nonempty, else the CLI `--date` when supplied non-blank (the `_as_of`
fallback), else the current date. -/
def todayStrPrices (now : Clock) (report_date : String) (as_of : Option String) : String :=
  if report_date = "" then
    match as_of with
    | some s => if s = "" then clockDate now else s
    | none => clockDate now
  else report_date

/-- One Top Gainers / Top Losers bullet of the price markdown. -/
def moverMdLine (m : Mover) : String :=
  "- [[" ++ sReplace m.1 "-" "" ++ "]] **" ++ fmtPlus2 m.2.2 ++ "%** - " ++ m.2.1

/-- Line list of the price markdown.  `none` models
`datetime.fromisoformat(today)` raising on a malformed date, which
aborts the renderer before any line is produced. -/
def format_markdown_prices_lines (now : Clock) (report_date : String)
    (indices : IndicesData) (gainers losers : List Mover) : Option (List String) :=
  let today := todayStrPrices now report_date indices.as_of
  match parseIsoYmd today with
  | none => none
  | some d =>
    let yesterday := isoOfYmd (predYmd d)
    some
      (["---",
        "date: " ++ today,
        "type: market-snapshot",
        "tags: [market, daily, indices]",
        "---",
        "",
        "# Daily Market Snapshot - " ++ today,
        "",
        "## 🇺🇸 US Indices",
        "",
        "| Index | Close | Change | % |",
        "|-------|------:|-------:|--:|"]
       ++ indices.us.map idxRow ++ [""]
       ++ ["## 🇭🇰 Hong Kong",
           "",
           "| Index | Close | Change | % |",
           "|-------|------:|-------:|--:|"]
       ++ indices.hk.map idxRow ++ [""]
       ++ (if gainers.isEmpty then []
           else ["## 📈 Top Gainers", ""] ++ (gainers.take 10).map moverMdLine ++ [""])
       ++ (if losers.isEmpty then []
           else ["## 📉 Top Losers", ""] ++ (losers.take 10).map moverMdLine ++ [""])
       ++ ["---",
           "",
           "## Related",
           "",
           "- [[Daily Market Snapshot - " ++ yesterday ++ "|어제 시황]]",
           "- [[Global News - " ++ today ++ "|오늘 뉴스]]"])

/-- Embedding of the price `_format_markdown`: the joined line list. -/
def _format_markdown (now : Clock) (report_date : String) (indices : IndicesData)
    (gainers losers : List Mover) : Option String :=
  (format_markdown_prices_lines now report_date indices gainers losers).map
    (sIntercalate "\n")

/-! ### daily_market_prices.py: movers fetch -/

/-- Alpha Vantage symbol of a ticker: `ticker.replace("-", ".")`. -/
def avSymbol (t : String) : String := sReplace t "-" "."

/-- The tickers actually queried: `df["ticker"].tolist()[:25]`. -/
def queriedTickers (df : List (String × String)) : List String :=
  (df.map (·.1)).take 25

/-- The `ticker_to_name` dict built by `dict(zip(...))` (duplicate
tickers: last wins) read through `.get(ticker, ticker)`. -/
def lookupNameLast (df : List (String × String)) (t : String) : String :=
  match (df.filter (fun p => p.1 = t)).getLast? with
  | some p => p.2
  | none => t

/-- The sequential quote loop of `_get_movers_alphavantage`: one quote
request per ticker (no retry), nonnegative percentage changes appended
to the gainers, negative ones to the losers, failed quotes skipped.
The `time.sleep(13)` pacing has no effect on the data and is not
modelled. -/
def moversGo (quote : String → Option (Rat × Rat × Rat)) (name_of : String → String) :
    List String → List Mover × List Mover
  | [] => ([], [])
  | t :: ts =>
    let rest := moversGo quote name_of ts
    match quote (avSymbol t) with
    | none => rest
    | some q =>
      if 0 ≤ q.2.2 then ((t, name_of t, q.2.2) :: rest.1, rest.2)
      else (rest.1, (t, name_of t, q.2.2) :: rest.2)

/-- Embedding of `_get_movers_alphavantage`: quote the first 25 tickers
of the universe and split by sign of the percentage change.  The quote
oracle is `_alphavantage_quote` composed with the network, abstracted to
a function. -/
def _get_movers_alphavantage (quote : String → Option (Rat × Rat × Rat))
    (df : List (String × String)) : List Mover × List Mover :=
  moversGo quote (lookupNameLast df) (queriedTickers df)

/-! ### Helper lemmas -/

theorem run_region_fail_mem (fetch : String → Option (Nat × Rat × Rat))
    (mp : List (String × String)) (name ticker : String)
    (h1 : (name, ticker) ∈ mp) (h2 : fetch ticker = none) :
    _fmt_row name none none none ∈ (run_region fetch mp).1 ∧
      ticker ∈ (run_region fetch mp).2 := by
  induction mp with
  | nil => cases h1
  | cons p rest ih =>
    obtain ⟨pn, pt⟩ := p
    rcases List.mem_cons.mp h1 with h | h
    · obtain ⟨e1, e2⟩ := Prod.mk.injEq .. ▸ h
      subst e1; subst e2
      simp only [run_region, h2]
      exact ⟨List.mem_cons_self .., List.mem_cons_self ..⟩
    · have ⟨m1, m2⟩ := ih h
      simp only [run_region]
      refine ⟨?_, ?_⟩ <;> rcases hf : fetch pt with _ | v
      · exact List.mem_cons_of_mem _ m1
      · obtain ⟨_, c, p⟩ := v
        exact List.mem_cons_of_mem _ m1
      · exact List.mem_cons_of_mem _ m2
      · obtain ⟨_, c, p⟩ := v
        exact m2

theorem run_regions_fail_mem (fetch : String → Option (Nat × Rat × Rat))
    (regions : List (String × List (String × String))) (title : String)
    (mp : List (String × String)) (ticker : String)
    (h1 : (title, mp) ∈ regions) (h2 : ticker ∈ (run_region fetch mp).2) :
    ticker ∈ (run_regions fetch regions).2 := by
  induction regions with
  | nil => cases h1
  | cons r rest ih =>
    obtain ⟨rt, rmp⟩ := r
    rcases List.mem_cons.mp h1 with h | h
    · obtain ⟨e1, e2⟩ := Prod.mk.injEq .. ▸ h
      subst e1; subst e2
      simp only [run_regions]
      exact List.mem_append_left _ h2
    · simp only [run_regions]
      exact List.mem_append_right _ (ih h)

/-- Claim C8: for every index whose whole fallback chain fails, the
report row shows the failure placeholder in every numeric column, the
ticker joins the failure list, and the failure list is surfaced in the
footer comments. -/
theorem claim_C8 (fetch : String → Option (Nat × Rat × Rat))
    (regions : List (String × List (String × String))) (title : String)
    (mp : List (String × String)) (name ticker : String)
    (h1 : (title, mp) ∈ regions) (h2 : (name, ticker) ∈ mp)
    (h3 : fetch ticker = none) :
    _fmt_row name none none none =
      padRight 18 name ++ " | " ++ "       조회 실패" ++ " | " ++ "     조회 실패" ++
        " | " ++ "    조회 실패" ∧
    _fmt_row name none none none ∈ (run_region fetch mp).1 ∧
    ticker ∈ (run_regions fetch regions).2 ∧
    ("- 실패 티커: " ++ sIntercalate ", " ((run_regions fetch regions).2)) ∈
      comments_footer ((run_regions fetch regions).2) := by
  have ⟨m1, m2⟩ := run_region_fail_mem fetch mp name ticker h2 h3
  have m3 := run_regions_fail_mem fetch regions title mp ticker h1 m2
  refine ⟨rfl, m1, m3, ?_⟩
  have hne : ¬ (run_regions fetch regions).2.isEmpty = true := by
    intro h
    rw [List.isEmpty_iff] at h
    rw [h] at m3
    cases m3
  simp only [comments_footer, if_neg hne]
  simp

theorem claim_C8_witness :
    _fmt_row "S&P 500" none none none =
      padRight 18 "S&P 500" ++ " | " ++ "       조회 실패" ++ " | " ++ "     조회 실패" ++
        " | " ++ "    조회 실패" ∧
    _fmt_row "S&P 500" none none none ∈
      (run_region (fun _ => none) [("S&P 500", "^GSPC")]).1 ∧
    "^GSPC" ∈ (run_regions (fun _ => none) [("🇺🇸 미국 (전일 종가 기준)", [("S&P 500", "^GSPC")])]).2 ∧
    ("- 실패 티커: " ++ sIntercalate ", "
        ((run_regions (fun _ => none) [("🇺🇸 미국 (전일 종가 기준)", [("S&P 500", "^GSPC")])]).2)) ∈
      comments_footer
        ((run_regions (fun _ => none) [("🇺🇸 미국 (전일 종가 기준)", [("S&P 500", "^GSPC")])]).2) :=
  claim_C8 (fun _ => none) [("🇺🇸 미국 (전일 종가 기준)", [("S&P 500", "^GSPC")])]
    "🇺🇸 미국 (전일 종가 기준)" [("S&P 500", "^GSPC")] "S&P 500" "^GSPC"
    (List.mem_singleton.mpr rfl) (List.mem_singleton.mpr rfl) rfl

/-- Claim C10: the price markdown renderer reads only the US and HK
entries of the collected index data; the CN entries never affect the
output. -/
theorem claim_C10 (now : Clock) (report_date : String)
    (us cn cn' hk : List (String × Option (Rat × Rat × Rat))) (as_of : Option String)
    (gainers losers : List Mover) :
    _format_markdown now report_date ⟨us, cn, hk, as_of⟩ gainers losers =
      _format_markdown now report_date ⟨us, cn', hk, as_of⟩ gainers losers := rfl

/-- Claim C1 counterexample: with two gainers tied at the same
percentage change, the rendered gainers list is not strictly descending
(the claim quantifies over every input list, so ties refute strictness). -/
theorem claim_C1_counterexample :
    ¬ List.Chain' (fun a b => a > b)
      ((sortGainersPy [("A", "Alpha", (1 : Rat)), ("B", "Beta", 1)]).map
        (fun m => m.2.2)) := by
  intro h
  have e : (sortGainersPy [("A", "Alpha", (1 : Rat)), ("B", "Beta", 1)]).map
      (fun m => m.2.2) = [1, 1] := by decide
  rw [e] at h
  exact absurd (List.chain'_cons.mp h).1 (lt_irrefl 1)

/-- Claim C1 (amended): the rendered gainers are sorted in descending
order by percentage change and the losers in ascending order, where
records with equal percentages stay adjacent (the Python sort is stable,
so ordering is non-strict). -/
theorem claim_C1 (gainers losers : List Mover) :
    List.Chain' (fun a b => a ≥ b) ((sortGainersPy gainers).map (fun m => m.2.2)) ∧
    List.Chain' (fun a b => a ≤ b) ((sortLosersPy losers).map (fun m => m.2.2)) := by
  constructor
  · have hp := sortedPy_pairwise (fun a b : Mover => decide (b.2.2 ≤ a.2.2))
      (fun a b c hab hbc =>
        decide_eq_true (le_trans (of_decide_eq_true hbc) (of_decide_eq_true hab)))
      (fun a b => by
        rcases le_total a.2.2 b.2.2 with h | h
        · exact Or.inr (decide_eq_true h)
        · exact Or.inl (decide_eq_true h))
      gainers
    have hp2 : (sortGainersPy gainers).Pairwise (fun a b => b.2.2 ≤ a.2.2) := by
      refine List.Pairwise.sublist (List.take_sublist _ _) ?_
      exact hp.imp (fun h => of_decide_eq_true h)
    exact (List.pairwise_map.mpr (hp2.imp (fun h => h))).chain'
  · have hp := sortedPy_pairwise (fun a b : Mover => decide (a.2.2 ≤ b.2.2))
      (fun a b c hab hbc =>
        decide_eq_true (le_trans (of_decide_eq_true hab) (of_decide_eq_true hbc)))
      (fun a b => by
        rcases le_total a.2.2 b.2.2 with h | h
        · exact Or.inl (decide_eq_true h)
        · exact Or.inr (decide_eq_true h))
      losers
    have hp2 : (sortLosersPy losers).Pairwise (fun a b => a.2.2 ≤ b.2.2) := by
      refine List.Pairwise.sublist (List.take_sublist _ _) ?_
      exact hp.imp (fun h => of_decide_eq_true h)
    exact (List.pairwise_map.mpr (hp2.imp (fun h => h))).chain'

theorem moversGo_cons_none (quote : String → Option (Rat × Rat × Rat))
    (name_of : String → String) (t : String) (rest : List String)
    (hq : quote (avSymbol t) = none) :
    moversGo quote name_of (t :: rest) = moversGo quote name_of rest := by
  simp [moversGo, hq]

theorem moversGo_cons_pos (quote : String → Option (Rat × Rat × Rat))
    (name_of : String → String) (t : String) (rest : List String) (q : Rat × Rat × Rat)
    (hq : quote (avSymbol t) = some q) (hs : 0 ≤ q.2.2) :
    moversGo quote name_of (t :: rest) =
      ((t, name_of t, q.2.2) :: (moversGo quote name_of rest).1,
       (moversGo quote name_of rest).2) := by
  simp [moversGo, hq, hs]

theorem moversGo_cons_neg (quote : String → Option (Rat × Rat × Rat))
    (name_of : String → String) (t : String) (rest : List String) (q : Rat × Rat × Rat)
    (hq : quote (avSymbol t) = some q) (hs : ¬ 0 ≤ q.2.2) :
    moversGo quote name_of (t :: rest) =
      ((moversGo quote name_of rest).1,
       (t, name_of t, q.2.2) :: (moversGo quote name_of rest).2) := by
  simp [moversGo, hq, hs]

theorem moversGo_gainers_sign (quote : String → Option (Rat × Rat × Rat))
    (name_of : String → String) (ts : List String) :
    ∀ x ∈ (moversGo quote name_of ts).1, 0 ≤ x.2.2 := by
  induction ts with
  | nil => intro x hx; cases hx
  | cons t rest ih =>
    intro x hx
    rcases hq : quote (avSymbol t) with _ | q
    · rw [moversGo_cons_none quote name_of t rest hq] at hx
      exact ih x hx
    · by_cases hs : 0 ≤ q.2.2
      · rw [moversGo_cons_pos quote name_of t rest q hq hs] at hx
        rcases List.mem_cons.mp hx with h | h
        · subst h; exact hs
        · exact ih x h
      · rw [moversGo_cons_neg quote name_of t rest q hq hs] at hx
        exact ih x hx

theorem moversGo_losers_sign (quote : String → Option (Rat × Rat × Rat))
    (name_of : String → String) (ts : List String) :
    ∀ x ∈ (moversGo quote name_of ts).2, x.2.2 < 0 := by
  induction ts with
  | nil => intro x hx; cases hx
  | cons t rest ih =>
    intro x hx
    rcases hq : quote (avSymbol t) with _ | q
    · rw [moversGo_cons_none quote name_of t rest hq] at hx
      exact ih x hx
    · by_cases hs : 0 ≤ q.2.2
      · rw [moversGo_cons_pos quote name_of t rest q hq hs] at hx
        exact ih x hx
      · rw [moversGo_cons_neg quote name_of t rest q hq hs] at hx
        rcases List.mem_cons.mp hx with h | h
        · subst h; exact lt_of_not_le hs
        · exact ih x h

theorem moversGo_mem (quote : String → Option (Rat × Rat × Rat))
    (name_of : String → String) (ts : List String) (t : String) (q : Rat × Rat × Rat)
    (ht : t ∈ ts) (hq : quote (avSymbol t) = some q) :
    (0 ≤ q.2.2 → (t, name_of t, q.2.2) ∈ (moversGo quote name_of ts).1) ∧
    (q.2.2 < 0 → (t, name_of t, q.2.2) ∈ (moversGo quote name_of ts).2) := by
  induction ts with
  | nil => cases ht
  | cons s rest ih =>
    rcases List.mem_cons.mp ht with h | h
    · subst h
      constructor <;> intro hs
      · rw [moversGo_cons_pos quote name_of t rest q hq hs]
        exact List.mem_cons_self ..
      · rw [moversGo_cons_neg quote name_of t rest q hq (not_le_of_lt hs)]
        exact List.mem_cons_self ..
    · have ⟨ih1, ih2⟩ := ih h
      constructor <;> intro hs
      · rcases hq2 : quote (avSymbol s) with _ | q2
        · rw [moversGo_cons_none quote name_of s rest hq2]
          exact ih1 hs
        · by_cases hs2 : 0 ≤ q2.2.2
          · rw [moversGo_cons_pos quote name_of s rest q2 hq2 hs2]
            exact List.mem_cons_of_mem _ (ih1 hs)
          · rw [moversGo_cons_neg quote name_of s rest q2 hq2 hs2]
            exact ih1 hs
      · rcases hq2 : quote (avSymbol s) with _ | q2
        · rw [moversGo_cons_none quote name_of s rest hq2]
          exact ih2 hs
        · by_cases hs2 : 0 ≤ q2.2.2
          · rw [moversGo_cons_pos quote name_of s rest q2 hq2 hs2]
            exact ih2 hs
          · rw [moversGo_cons_neg quote name_of s rest q2 hq2 hs2]
            exact List.mem_cons_of_mem _ (ih2 hs)

theorem moversGo_count (quote : String → Option (Rat × Rat × Rat))
    (name_of : String → String) (ts : List String) :
    (moversGo quote name_of ts).1.length + (moversGo quote name_of ts).2.length =
      (ts.filter (fun s => (quote (avSymbol s)).isSome)).length := by
  induction ts with
  | nil => rfl
  | cons t rest ih =>
    rcases hq : quote (avSymbol t) with _ | q
    · rw [moversGo_cons_none quote name_of t rest hq]
      simpa [List.filter, hq] using ih
    · by_cases hs : 0 ≤ q.2.2
      · rw [moversGo_cons_pos quote name_of t rest q hq hs]
        simp only [List.filter, hq, Option.isSome_some, List.length_cons]
        omega
      · rw [moversGo_cons_neg quote name_of t rest q hq hs]
        simp only [List.filter, hq, Option.isSome_some, List.length_cons]
        omega

/-- Claim C7: in `_get_movers_alphavantage` at most 25 tickers are
queried, every successful quote lands in exactly one of the two lists
according to the sign of its percentage change (nonnegative to gainers,
negative to losers), and failed quotes contribute nothing (one quote
request per ticker, so no retry). -/
theorem claim_C7 (quote : String → Option (Rat × Rat × Rat))
    (df : List (String × String)) (t : String) (q : Rat × Rat × Rat)
    (ht : t ∈ queriedTickers df) (hq : quote (avSymbol t) = some q) :
    (queriedTickers df).length ≤ 25 ∧
    (0 ≤ q.2.2 →
      (t, lookupNameLast df t, q.2.2) ∈ (_get_movers_alphavantage quote df).1) ∧
    (q.2.2 < 0 →
      (t, lookupNameLast df t, q.2.2) ∈ (_get_movers_alphavantage quote df).2) ∧
    (∀ x ∈ (_get_movers_alphavantage quote df).1, 0 ≤ x.2.2) ∧
    (∀ x ∈ (_get_movers_alphavantage quote df).2, x.2.2 < 0) ∧
    (∀ x, ¬ (x ∈ (_get_movers_alphavantage quote df).1 ∧
             x ∈ (_get_movers_alphavantage quote df).2)) ∧
    (_get_movers_alphavantage quote df).1.length +
        (_get_movers_alphavantage quote df).2.length =
      ((queriedTickers df).filter (fun s => (quote (avSymbol s)).isSome)).length := by
  have ⟨hm1, hm2⟩ := moversGo_mem quote (lookupNameLast df) (queriedTickers df) t q ht hq
  refine ⟨List.length_take_le .., hm1, hm2, ?_, ?_, ?_, ?_⟩
  · exact moversGo_gainers_sign quote (lookupNameLast df) (queriedTickers df)
  · exact moversGo_losers_sign quote (lookupNameLast df) (queriedTickers df)
  · intro x ⟨hg, hl⟩
    exact absurd (moversGo_gainers_sign quote (lookupNameLast df) (queriedTickers df) x hg)
      (not_le_of_lt (moversGo_losers_sign quote (lookupNameLast df) (queriedTickers df) x hl))
  · exact moversGo_count quote (lookupNameLast df) (queriedTickers df)

theorem claim_C7_witness :
    (queriedTickers [("IBM", "IBM Corp")]).length ≤ 25 ∧
    (0 ≤ ((1 : Rat), (0 : Rat), (0 : Rat)).2.2 →
      ("IBM", lookupNameLast [("IBM", "IBM Corp")] "IBM", ((1 : Rat), (0 : Rat), (0 : Rat)).2.2) ∈
        (_get_movers_alphavantage (fun _ => some (1, 0, 0)) [("IBM", "IBM Corp")]).1) ∧
    (((1 : Rat), (0 : Rat), (0 : Rat)).2.2 < 0 →
      ("IBM", lookupNameLast [("IBM", "IBM Corp")] "IBM", ((1 : Rat), (0 : Rat), (0 : Rat)).2.2) ∈
        (_get_movers_alphavantage (fun _ => some (1, 0, 0)) [("IBM", "IBM Corp")]).2) ∧
    (∀ x ∈ (_get_movers_alphavantage (fun _ => some (1, 0, 0)) [("IBM", "IBM Corp")]).1,
      0 ≤ x.2.2) ∧
    (∀ x ∈ (_get_movers_alphavantage (fun _ => some (1, 0, 0)) [("IBM", "IBM Corp")]).2,
      x.2.2 < 0) ∧
    (∀ x, ¬ (x ∈ (_get_movers_alphavantage (fun _ => some (1, 0, 0)) [("IBM", "IBM Corp")]).1 ∧
             x ∈ (_get_movers_alphavantage (fun _ => some (1, 0, 0)) [("IBM", "IBM Corp")]).2)) ∧
    (_get_movers_alphavantage (fun _ => some (1, 0, 0)) [("IBM", "IBM Corp")]).1.length +
        (_get_movers_alphavantage (fun _ => some (1, 0, 0)) [("IBM", "IBM Corp")]).2.length =
      ((queriedTickers [("IBM", "IBM Corp")]).filter
        (fun s => ((fun _ => some ((1 : Rat), (0 : Rat), (0 : Rat))) (avSymbol s)).isSome)).length :=
  claim_C7 (fun _ => some (1, 0, 0)) [("IBM", "IBM Corp")] "IBM" (1, 0, 0)
    (by decide) rfl

theorem dictFind_dictInsert_self (c : List (String × α)) (k : String) (v : α) :
    dictFind (dictInsert c k v) k = some v := by
  induction c with
  | nil => simp [dictInsert, dictFind, List.find?]
  | cons p rest ih =>
    obtain ⟨k', v'⟩ := p
    by_cases h : k' = k
    · subst h
      simp [dictInsert, dictFind, List.find?]
    · simp only [dictInsert, if_neg h]
      simpa [dictFind, List.find?, h] using ih

theorem dictFind_dictInsert_ne (c : List (String × α)) (k k' : String) (v : α)
    (h : ¬ k = k') :
    dictFind (dictInsert c k v) k' = dictFind c k' := by
  induction c with
  | nil => simp [dictInsert, dictFind, List.find?, h]
  | cons p rest ih =>
    obtain ⟨k0, v0⟩ := p
    by_cases h0 : k0 = k
    · subst h0
      simp [dictInsert, dictFind, List.find?, h]
    · simp only [dictInsert, if_neg h0]
      by_cases h1 : k0 = k'
      · subst h1
        simp [dictFind, List.find?]
      · simpa [dictFind, List.find?, h1] using ih

theorem mem_keys_dictInsert (c : List (String × α)) (k x : String) (v : α) :
    x ∈ (dictInsert c k v).map Prod.fst ↔ x = k ∨ x ∈ c.map Prod.fst := by
  induction c with
  | nil => simp [dictInsert]
  | cons p rest ih =>
    obtain ⟨k0, v0⟩ := p
    by_cases h0 : k0 = k
    · subst h0
      simp [dictInsert]
    · simp only [dictInsert, if_neg h0, List.map_cons, List.mem_cons, ih]
      tauto

theorem nodup_keys_dictInsert (c : List (String × α)) (k : String) (v : α)
    (h : (c.map Prod.fst).Nodup) : ((dictInsert c k v).map Prod.fst).Nodup := by
  induction c with
  | nil => simp [dictInsert]
  | cons p rest ih =>
    obtain ⟨k0, v0⟩ := p
    rw [List.map_cons, List.nodup_cons] at h
    by_cases h0 : k0 = k
    · subst h0
      simpa [dictInsert] using h
    · simp only [dictInsert, if_neg h0, List.map_cons, List.nodup_cons]
      refine ⟨?_, ih h.2⟩
      intro hmem
      rcases (mem_keys_dictInsert rest k k0 v).mp hmem with h1 | h1
      · exact h0 h1
      · exact h.1 h1

theorem main_cache_updates_preserved (fetch : String → Option (String × Rat × Rat))
    (ts : List String) (t : String) (e : String × Rat × Rat)
    (hf : fetch t = some e) :
    ∀ cache, dictFind cache t = some e →
      dictFind (main_cache_updates fetch ts cache) t = some e := by
  induction ts with
  | nil => intro cache hc; simpa [main_cache_updates] using hc
  | cons s rest ih =>
    intro cache hc
    show dictFind (main_cache_updates fetch rest
      (match fetch s with | none => cache | some e' => dictInsert cache s e')) t = some e
    rcases hs : fetch s with _ | e'
    · exact ih cache hc
    · by_cases hst : s = t
      · subst hst
        rw [hs] at hf
        obtain rfl := Option.some.injEq .. ▸ hf
        exact ih _ (dictFind_dictInsert_self cache s e')
      · exact ih _ ((dictFind_dictInsert_ne cache s t e' hst).trans hc)

theorem main_cache_updates_written (fetch : String → Option (String × Rat × Rat))
    (ts : List String) (t : String) (e : String × Rat × Rat)
    (hf : fetch t = some e) (ht : t ∈ ts) :
    ∀ cache, dictFind (main_cache_updates fetch ts cache) t = some e := by
  induction ts with
  | nil => cases ht
  | cons s rest ih =>
    intro cache
    show dictFind (main_cache_updates fetch rest
      (match fetch s with | none => cache | some e' => dictInsert cache s e')) t = some e
    rcases List.mem_cons.mp ht with h | h
    · subst h
      rw [hf]
      exact main_cache_updates_preserved fetch rest t e hf _
        (dictFind_dictInsert_self cache t e)
    · rcases hs : fetch s with _ | e'
      · exact ih h cache
      · exact ih h (dictInsert cache s e')

theorem main_cache_updates_nodup (fetch : String → Option (String × Rat × Rat))
    (ts : List String) :
    ∀ cache, (cache.map Prod.fst).Nodup →
      ((main_cache_updates fetch ts cache).map Prod.fst).Nodup := by
  induction ts with
  | nil => intro cache h; simpa [main_cache_updates] using h
  | cons s rest ih =>
    intro cache h
    show ((main_cache_updates fetch rest
      (match fetch s with | none => cache | some e' => dictInsert cache s e')).map
        Prod.fst).Nodup
    rcases hs : fetch s with _ | e'
    · exact ih cache h
    · exact ih _ (nodup_keys_dictInsert cache s e' h)

/-- Claim C6: in the main loop, a successful fetch for a ticker replaces
any existing cache entry for it (no merging), the cache keeps at most
one entry per ticker, and the last write for a ticker wins: after the
loop the ticker maps exactly to the record its (deterministic) fetch
produced. -/
theorem claim_C6 (fetch : String → Option (String × Rat × Rat))
    (tickers : List String) (cache : List (String × (String × Rat × Rat)))
    (t : String) (e : String × Rat × Rat)
    (hnd : (cache.map Prod.fst).Nodup) (ht : t ∈ tickers) (hf : fetch t = some e) :
    dictFind (main_cache_updates fetch tickers cache) t = some e ∧
    ((main_cache_updates fetch tickers cache).map Prod.fst).Nodup ∧
    (∀ (c : List (String × (String × Rat × Rat))) (k : String) (v : String × Rat × Rat),
      dictFind (dictInsert c k v) k = some v) :=
  ⟨main_cache_updates_written fetch tickers t e hf ht cache,
   main_cache_updates_nodup fetch tickers cache hnd,
   fun c k v => dictFind_dictInsert_self c k v⟩

theorem claim_C6_witness :
    dictFind (main_cache_updates (fun _ => some ("2026-02-04", 1, 2)) ["^GSPC"]
      [("^GSPC", ("2026-02-03", 3, 4))]) "^GSPC" = some ("2026-02-04", 1, 2) ∧
    ((main_cache_updates (fun _ => some ("2026-02-04", 1, 2)) ["^GSPC"]
      [("^GSPC", ("2026-02-03", 3, 4))]).map Prod.fst).Nodup ∧
    (∀ (c : List (String × (String × Rat × Rat))) (k : String) (v : String × Rat × Rat),
      dictFind (dictInsert c k v) k = some v) :=
  claim_C6 (fun _ => some ("2026-02-04", 1, 2)) ["^GSPC"]
    [("^GSPC", ("2026-02-03", 3, 4))] "^GSPC" ("2026-02-04", 1, 2)
    (by simp) (by simp) rfl

theorem extract_item_title (c : Card) (i : NewsItem)
    (hc : extract_item c = some i) : ¬ i.title = "" := by
  unfold extract_item at hc
  by_cases h : card_title c = ""
  · rw [if_pos h] at hc
    cases hc
  · rw [if_neg h] at hc
    obtain rfl := Option.some.injEq .. ▸ hc
    exact h

theorem collectItems_title (cs : List Card) :
    ∀ j ∈ collectItems cs, ¬ j.title = "" := by
  induction cs with
  | nil => intro j hj; cases hj
  | cons c rest ih =>
    intro j hj
    rw [collectItems] at hj
    rcases he : extract_item c with _ | i <;> rw [he] at hj
    · exact ih j hj
    · rcases List.mem_cons.mp hj with h | h
      · subst h; exact extract_item_title c j he
      · exact ih j h

/-- Claim C9: each news-card field is extracted independently, a missing
field yields an empty string (empty list for tickers) without aborting
the record, every returned record has a non-empty title, and cards with
an empty (stripped) title are dropped. -/
theorem claim_C9 (cards : List Card) (limit : Nat) (c : Card) (i : NewsItem)
    (hc : extract_item c = some i) :
    ¬ i.title = "" ∧
    (c.summaryElem = none → i.summary = "") ∧
    (c.firstLine = none → i.source = "" ∧ i.time = "") ∧
    (c.importanceBadge = none → i.importance = "") ∧
    (c.sentimentBadges = [] → i.sentiment = "") ∧
    (c.tickerElems = [] → i.tickers = []) ∧
    (∀ j ∈ crawl_blackquant_news cards limit, ¬ j.title = "") ∧
    (∀ c' : Card, card_title c' = "" → extract_item c' = none) := by
  have hfields : i.summary = card_summary c ∧ i.source = (card_source_time c).1 ∧
      i.time = (card_source_time c).2 ∧ i.importance = card_importance c ∧
      i.sentiment = card_sentiment c ∧ i.tickers = card_tickers c := by
    unfold extract_item at hc
    by_cases h : card_title c = ""
    · rw [if_pos h] at hc
      cases hc
    · rw [if_neg h] at hc
      obtain rfl := Option.some.injEq .. ▸ hc
      exact ⟨rfl, rfl, rfl, rfl, rfl, rfl⟩
  obtain ⟨hsum, hsrc, htime, himp, hsent, htick⟩ := hfields
  refine ⟨extract_item_title c i hc, ?_, ?_, ?_, ?_, ?_, ?_, ?_⟩
  · intro h
    rw [hsum, card_summary, h]
    rfl
  · intro h
    rw [hsrc, htime, card_source_time, h]
    exact ⟨rfl, rfl⟩
  · intro h
    rw [himp, card_importance, h]
  · intro h
    rw [hsent, card_sentiment, h]
    rfl
  · intro h
    rw [htick, card_tickers, h]
    rfl
  · exact collectItems_title (cards.take limit)
  · intro c' h
    unfold extract_item
    rw [if_pos h]

theorem claim_C9_witness :
    ¬ (NewsItem.mk "Fed raises rates" "" "" "" "" "" []).title = "" ∧
    ((Card.mk (some "Fed raises rates") none none none [] []).summaryElem = none →
      (NewsItem.mk "Fed raises rates" "" "" "" "" "" []).summary = "") ∧
    ((Card.mk (some "Fed raises rates") none none none [] []).firstLine = none →
      (NewsItem.mk "Fed raises rates" "" "" "" "" "" []).source = "" ∧
      (NewsItem.mk "Fed raises rates" "" "" "" "" "" []).time = "") ∧
    ((Card.mk (some "Fed raises rates") none none none [] []).importanceBadge = none →
      (NewsItem.mk "Fed raises rates" "" "" "" "" "" []).importance = "") ∧
    ((Card.mk (some "Fed raises rates") none none none [] []).sentimentBadges = [] →
      (NewsItem.mk "Fed raises rates" "" "" "" "" "" []).sentiment = "") ∧
    ((Card.mk (some "Fed raises rates") none none none [] []).tickerElems = [] →
      (NewsItem.mk "Fed raises rates" "" "" "" "" "" []).tickers = []) ∧
    (∀ j ∈ crawl_blackquant_news [Card.mk (some "Fed raises rates") none none none [] []] 10,
      ¬ j.title = "") ∧
    (∀ c' : Card, card_title c' = "" → extract_item c' = none) :=
  claim_C9 [Card.mk (some "Fed raises rates") none none none [] []] 10
    (Card.mk (some "Fed raises rates") none none none [] [])
    (NewsItem.mk "Fed raises rates" "" "" "" "" "" []) (by decide)

theorem stooq_none_of_few (resp : Except String String) (as_of : Option String)
    (h : (stooqUsableRows resp as_of).length < 2) :
    _stooq_last_two_closes resp as_of = none := by
  cases resp with
  | error e => rfl
  | ok raw =>
    simp only [stooqUsableRows] at h
    simp only [_stooq_last_two_closes]
    by_cases c1 : sStrip raw = ""
    · rw [if_pos c1]
    · rw [if_neg c1] at h ⊢
      by_cases c2 : sStartsWith (sStrip raw) "Exceeded the daily hits limit" = true
      · rw [if_pos c2]
      · rw [if_neg c2] at h ⊢
        by_cases c3 : ¬ sStartsWith (sStrip raw) "Date," = true
        · rw [if_pos c3]
        · rw [if_neg c3] at h ⊢
          by_cases c4 : (stooqRows (sStrip raw)).length < 2
          · rw [if_pos c4]
          · rw [if_neg c4]
            cases as_of with
            | none => exact absurd h c4
            | some a =>
              dsimp only at h ⊢
              rcases hp : parseIsoYmd a with _ | cutoff
              · simp only [hp]
              · simp only [hp] at h ⊢
                rw [if_pos h]

/-- Claim C5: when the Stooq source yields fewer than two usable rows
(before or after the `as_of` cutoff), `_stooq_last_two_closes` returns
`None` without raising, and `_last_two_closes_index` proceeds to the
cache; a cache hit with well-formed fields is returned. -/
theorem claim_C5 (resp : Except String String) (as_of : Option String)
    (ticker sym : String) (cache : List (String × (String × Rat × Rat)))
    (ds : String) (cv pv : Rat) (d : Nat × Nat × Nat)
    (h1 : (stooqUsableRows resp as_of).length < 2)
    (h2 : dictFind cache ticker = some (ds, cv, pv))
    (h3 : parseIsoYmd ds = some d) :
    _stooq_last_two_closes resp as_of = none ∧
    _last_two_closes_index resp ticker (some sym) as_of cache =
      some (ymdKey d, cv, pv) := by
  have hs := stooq_none_of_few resp as_of h1
  refine ⟨hs, ?_⟩
  simp only [_last_two_closes_index, hs, h2, cacheEntryToTriple, h3, Option.map_some']

theorem claim_C5_witness :
    _stooq_last_two_closes (.ok "Date,Close\n2026-01-02,100") none = none ∧
    _last_two_closes_index (.ok "Date,Close\n2026-01-02,100") "^GSPC" (some "^spx") none
      [("^GSPC", ("2026-02-03", (3 : Rat), (4 : Rat)))] =
      some (ymdKey (2026, 2, 3), 3, 4) :=
  claim_C5 (.ok "Date,Close\n2026-01-02,100") none "^GSPC" "^spx"
    [("^GSPC", ("2026-02-03", (3 : Rat), (4 : Rat)))] "2026-02-03" 3 4 (2026, 2, 3)
    (by decide) rfl rfl

/-- Claim C2 counterexample: on a page with no ticker table,
`_wiki_table_first` does not return `None` or an empty result — it
raises `RuntimeError(f"Ticker table not found: {url}")`, refuting the
claim that no exception ever propagates out of the universe-loading
path. -/
theorem claim_C2_counterexample :
    _wiki_table_first "https://en.wikipedia.org/wiki/Nasdaq-100" (.ok []) =
      .error "Ticker table not found: https://en.wikipedia.org/wiki/Nasdaq-100" := rfl

/-- Claim C2 (amended): the quote and CSV source functions
(`_stooq_last_two_closes`, `_alphavantage_quote`, `_alphavantage_daily`)
convert every failure to `None` at the function boundary, but
`_wiki_table_first` has no handler: a fetch failure propagates
unchanged, and a page without a ticker table raises a `RuntimeError`,
which escapes through `_get_universe_us_ndx` and `_get_universe_hk_hsi`
when no constituent CSV is available. -/
theorem claim_C2 (e : String) (as_of : Option String) (url : String)
    (tables : List WikiTable) (hnt : findTarget tables = none) :
    _stooq_last_two_closes (.error e) as_of = none ∧
    _alphavantage_quote (.error e) = none ∧
    _alphavantage_daily (.error e) = none ∧
    _wiki_table_first url (.error e) = .error e ∧
    _wiki_table_first url (.ok tables) = .error ("Ticker table not found: " ++ url) ∧
    _get_universe_us_ndx none (.error e) = .error e ∧
    _get_universe_us_ndx none (.ok tables) =
      .error "Ticker table not found: https://en.wikipedia.org/wiki/Nasdaq-100" ∧
    _get_universe_hk_hsi none (.error e) = .error e ∧
    _get_universe_hk_hsi none (.ok tables) =
      .error "Ticker table not found: https://en.wikipedia.org/wiki/Hang_Seng_Index" := by
  refine ⟨rfl, rfl, rfl, rfl, ?_, rfl, ?_, rfl, ?_⟩
  · simp [_wiki_table_first, hnt]
  · simp [_get_universe_us_ndx, _wiki_table_first, hnt, Except.map]
  · simp [_get_universe_hk_hsi, _wiki_table_first, hnt, Except.map]

theorem claim_C2_witness :
    _stooq_last_two_closes (.error "connection timed out") none = none ∧
    _alphavantage_quote (.error "connection timed out") = none ∧
    _alphavantage_daily (.error "connection timed out") = none ∧
    _wiki_table_first "u" (.error "connection timed out") = .error "connection timed out" ∧
    _wiki_table_first "u" (.ok []) = .error ("Ticker table not found: " ++ "u") ∧
    _get_universe_us_ndx none (.error "connection timed out") =
      .error "connection timed out" ∧
    _get_universe_us_ndx none (.ok []) =
      .error "Ticker table not found: https://en.wikipedia.org/wiki/Nasdaq-100" ∧
    _get_universe_hk_hsi none (.error "connection timed out") =
      .error "connection timed out" ∧
    _get_universe_hk_hsi none (.ok []) =
      .error "Ticker table not found: https://en.wikipedia.org/wiki/Hang_Seng_Index" :=
  claim_C2 "connection timed out" none "u" [] rfl

/-- Claim C3 counterexample: two invocations of `format_news_report` on
the same news list but at clock readings one minute apart yield
different output strings, so the output is not determined by the input
data alone. -/
theorem claim_C3_counterexample :
    ¬ format_news_report ⟨2026, 10, 12, 9, 30, 0⟩
        [⟨"Fed raises rates", "", "", "", "", "", []⟩] =
      format_news_report ⟨2026, 10, 12, 9, 31, 0⟩
        [⟨"Fed raises rates", "", "", "", "", "", []⟩] := by decide

/-- Claim C3 (amended): every formatter is deterministic given its data
and the wall-clock reading truncated to the minute: the news formatters
agree whenever the two readings agree up to the minute, and the price
markdown renderer ignores the clock whenever a nonempty report date is
supplied (the table formatters take no clock at all). -/
theorem claim_C3 (t t' : Clock) (items : List NewsItem) (idx : IndicesData)
    (g l : List Mover)
    (h1 : t.year = t'.year) (h2 : t.month = t'.month) (h3 : t.day = t'.day)
    (h4 : t.hour = t'.hour) (h5 : t.minute = t'.minute) :
    format_news_report t items = format_news_report t' items ∧
    format_telegram t items = format_telegram t' items ∧
    format_markdown_news t items = format_markdown_news t' items ∧
    (∀ (u u' : Clock) (rd : String), ¬ rd = "" →
      _format_markdown u rd idx g l = _format_markdown u' rd idx g l) := by
  cases t
  cases t'
  dsimp only at h1 h2 h3 h4 h5
  subst h1 h2 h3 h4 h5
  refine ⟨rfl, rfl, rfl, ?_⟩
  intro u u' rd hrd
  simp only [_format_markdown, format_markdown_prices_lines, todayStrPrices, if_neg hrd]

theorem claim_C3_witness :
    format_news_report ⟨2026, 10, 12, 9, 30, 0⟩
        [⟨"Fed raises rates", "", "", "", "", "", []⟩] =
      format_news_report ⟨2026, 10, 12, 9, 30, 59⟩
        [⟨"Fed raises rates", "", "", "", "", "", []⟩] ∧
    format_telegram ⟨2026, 10, 12, 9, 30, 0⟩
        [⟨"Fed raises rates", "", "", "", "", "", []⟩] =
      format_telegram ⟨2026, 10, 12, 9, 30, 59⟩
        [⟨"Fed raises rates", "", "", "", "", "", []⟩] ∧
    format_markdown_news ⟨2026, 10, 12, 9, 30, 0⟩
        [⟨"Fed raises rates", "", "", "", "", "", []⟩] =
      format_markdown_news ⟨2026, 10, 12, 9, 30, 59⟩
        [⟨"Fed raises rates", "", "", "", "", "", []⟩] ∧
    _format_markdown ⟨2026, 10, 12, 9, 30, 0⟩ "2026-02-04" ⟨[], [], [], none⟩ [] [] =
      _format_markdown ⟨2027, 1, 1, 0, 0, 0⟩ "2026-02-04" ⟨[], [], [], none⟩ [] [] := by
  have h := claim_C3 ⟨2026, 10, 12, 9, 30, 0⟩ ⟨2026, 10, 12, 9, 30, 59⟩
    [⟨"Fed raises rates", "", "", "", "", "", []⟩] ⟨[], [], [], none⟩ [] []
    rfl rfl rfl rfl rfl
  exact ⟨h.1, h.2.1, h.2.2.1,
    h.2.2.2 ⟨2026, 10, 12, 9, 30, 0⟩ ⟨2027, 1, 1, 0, 0, 0⟩ "2026-02-04" (by decide)⟩

/-- Claim C4 counterexample: on an empty news list the news markdown
renderer returns the fixed no-data string, which contains neither the
YAML front-matter block nor a Related section, refuting the claim for
"every input". -/
theorem claim_C4_counterexample :
    format_markdown_news ⟨2026, 10, 12, 9, 30, 0⟩ [] = "# Global News\n\nNo news found." ∧
    ¬ "---" ∈ sSplitChar (format_markdown_news ⟨2026, 10, 12, 9, 30, 0⟩ []) '\n' ∧
    ¬ "## Related" ∈ sSplitChar (format_markdown_news ⟨2026, 10, 12, 9, 30, 0⟩ []) '\n' := by
  refine ⟨rfl, ?_, ?_⟩ <;> decide

/-- Claim C4 (amended): the price markdown renderer emits the YAML
front-matter block as its first five lines and a Related section for
every input on which it produces output (its date parses), and the news
markdown renderer does the same for every nonempty news list; on an
empty news list it instead returns a fixed no-data string. -/
theorem claim_C4 (now : Clock) (report_date : String) (idx : IndicesData)
    (g l : List Mover) (items : List NewsItem)
    (hp : (format_markdown_prices_lines now report_date idx g l).isSome = true)
    (hn : ¬ items = []) :
    ((format_markdown_prices_lines now report_date idx g l).getD []).take 5 =
      ["---", "date: " ++ todayStrPrices now report_date idx.as_of,
       "type: market-snapshot", "tags: [market, daily, indices]", "---"] ∧
    "## Related" ∈ (format_markdown_prices_lines now report_date idx g l).getD [] ∧
    _format_markdown now report_date idx g l =
      some (sIntercalate "\n"
        ((format_markdown_prices_lines now report_date idx g l).getD [])) ∧
    (format_markdown_news_lines now items).take 5 =
      ["---", "date: " ++ clockDate now, "type: news", "tags: [news, market, daily]",
       "---"] ∧
    "## Related" ∈ format_markdown_news_lines now items ∧
    format_markdown_news now items =
      sIntercalate "\n" (format_markdown_news_lines now items) := by
  rcases hd : parseIsoYmd (todayStrPrices now report_date idx.as_of) with _ | d
  · rw [format_markdown_prices_lines] at hp
    simp only [hd] at hp
    cases hp
  · have hlines :
        format_markdown_prices_lines now report_date idx g l ≠ none := by
      intro hnone
      rw [hnone] at hp
      cases hp
    refine ⟨?_, ?_, ?_, ?_, ?_, ?_⟩
    · rw [format_markdown_prices_lines]
      simp only [hd]
      rfl
    · rw [format_markdown_prices_lines]
      simp only [hd, Option.getD_some]
      simp
    · rw [_format_markdown, format_markdown_prices_lines]
      simp only [hd]
      rfl
    · rfl
    · rw [format_markdown_news_lines]
      simp
    · rcases items with _ | ⟨i, is⟩
      · exact absurd rfl hn
      · rfl

theorem claim_C4_witness :
    ((format_markdown_prices_lines ⟨2026, 2, 5, 0, 0, 0⟩ "2026-02-04" ⟨[], [], [], none⟩
        [] []).getD []).take 5 =
      ["---", "date: " ++ todayStrPrices ⟨2026, 2, 5, 0, 0, 0⟩ "2026-02-04" none,
       "type: market-snapshot", "tags: [market, daily, indices]", "---"] ∧
    "## Related" ∈ (format_markdown_prices_lines ⟨2026, 2, 5, 0, 0, 0⟩ "2026-02-04"
        ⟨[], [], [], none⟩ [] []).getD [] ∧
    _format_markdown ⟨2026, 2, 5, 0, 0, 0⟩ "2026-02-04" ⟨[], [], [], none⟩ [] [] =
      some (sIntercalate "\n"
        ((format_markdown_prices_lines ⟨2026, 2, 5, 0, 0, 0⟩ "2026-02-04"
          ⟨[], [], [], none⟩ [] []).getD [])) ∧
    (format_markdown_news_lines ⟨2026, 2, 5, 0, 0, 0⟩
        [⟨"Fed raises rates", "", "", "", "", "", []⟩]).take 5 =
      ["---", "date: " ++ clockDate ⟨2026, 2, 5, 0, 0, 0⟩, "type: news",
       "tags: [news, market, daily]", "---"] ∧
    "## Related" ∈ format_markdown_news_lines ⟨2026, 2, 5, 0, 0, 0⟩
        [⟨"Fed raises rates", "", "", "", "", "", []⟩] ∧
    format_markdown_news ⟨2026, 2, 5, 0, 0, 0⟩
        [⟨"Fed raises rates", "", "", "", "", "", []⟩] =
      sIntercalate "\n" (format_markdown_news_lines ⟨2026, 2, 5, 0, 0, 0⟩
        [⟨"Fed raises rates", "", "", "", "", "", []⟩]) :=
  claim_C4 ⟨2026, 2, 5, 0, 0, 0⟩ "2026-02-04" ⟨[], [], [], none⟩ [] []
    [⟨"Fed raises rates", "", "", "", "", "", []⟩] (by decide) (by decide)
